import Mathlib

/-!
Verification of the retry, catalog-client and controller components of
consul-terraform-sync, shallowly embedded in Lean 4.

Embedding conventions:
* Go errors are `Option String` (`none` is the nil error, `some msg` an
  error whose `Error()` text is `msg`).
* Go float64 arithmetic in `WaitTime` is idealized over `ℚ`; the Go `int(x)`
  conversion (truncation toward zero) is `goInt`.
* `rand.Float64()` is a parameter `r : ℚ` with `0 ≤ r < 1`.
* The nondeterministic `select` between `ctx.Done()` and the ticker in
  `Retry.Do` is resolved by an explicit schedule trace (`List Sched`);
  a result of `none` means the trace ended with `Do` still looping.
* The results of successive invocations of the retried operation are a
  function `f : Nat → Option String` (invocation 0 is the initial try).
-/

namespace CTS

/-- Go constant `maxWaitTime = 15 * float64(time.Minute)` in nanoseconds
(`time.Minute` is `60 * 1e9` ns). -/
def maxWaitTime : ℚ := 15 * (60 * 1000000000)

/-- Go conversion `int(x)` from float64: truncation toward zero. -/
def goInt (q : ℚ) : ℤ := if q < 0 then ⌈q⌉ else ⌊q⌋

/-- The value `(baseTimeSeconds + delay) * float64(time.Second)` computed in
`WaitTime` before the cap test, with `baseTimeSeconds = 2^attempt`,
`nextTimeSeconds = 2^(attempt+1)`, `delayRange = (next-base)/2` and
`delay = r * delayRange` for the random draw `r`. -/
def rawTotal (attempt : ℕ) (r : ℚ) : ℚ :=
  ((2 : ℚ) ^ attempt + r * (((2 : ℚ) ^ (attempt + 1) - (2 : ℚ) ^ attempt) / 2)) * 1000000000

/-- Model of `retry.WaitTime` from retry/retry.go: exponential backoff with random
delay, capped at `maxWaitTime`, returned as a Go `int` of nanoseconds. -/
def WaitTime (attempt : ℕ) (r : ℚ) : ℤ :=
  if rawTotal attempt r > maxWaitTime then goInt maxWaitTime else goInt (rawTotal attempt r)

/-- A single quote character, used in the retry error format string. -/
def squote : String := String.singleton (Char.ofNat 39)

/-- The per-attempt error from `fmt.Errorf("retry attempt #%d failed \x27%s\x27", attempt, err)`
in `Retry.Do`. -/
def wrapAttempt (n : ℕ) (msg : String) : String :=
  "retry attempt #" ++ toString n ++ " failed " ++ squote ++ msg ++ squote

/-- One scheduler decision inside `Retry.Do`'s `select`: either
`ctx.Done()` fires (carrying the value of `ctx.Err()`), or the backoff
ticker fires and the operation is invoked again. -/
inductive Sched where
  | ctxDone (e : String)
  | tick
deriving DecidableEq

/-- The retry loop of `Retry.Do` (retry/retry.go lines 52-83). State:
`attempt` is the number of retries performed so far, `errs` the accumulated
error (`errors.Wrap(errs, err.Error())` yields the message
`err.Error() ++ ": " ++ errs.Error()`). The result pairs the returned Go
error with the total number of invocations of the operation; `none` means
the schedule trace ran out while the loop was still running. -/
def doLoop (f : ℕ → Option String) (maxRetry : ℤ) :
    ℕ → Option String → List Sched → Option (Option String × ℕ)
  | _, _, [] => none
  | attempt, _, Sched.ctxDone e :: _ => some (some e, attempt + 1)
  | attempt, errs, Sched.tick :: rest =>
    let attemptN := attempt + 1
    match f attemptN with
    | none => some (none, attemptN + 1)
    | some msg =>
      let wrapped := wrapAttempt attemptN msg
      let errsN : String :=
        match errs with
        | none => wrapped
        | some prev => wrapped ++ ": " ++ prev
      if 0 ≤ maxRetry ∧ (attemptN : ℤ) ≥ maxRetry then some (some errsN, attemptN + 1)
      else doLoop f maxRetry attemptN (some errsN) rest

/-- Model of `Retry.Do` from retry/retry.go: the initial invocation, the
`maxRetry == 0` early return, then the retry loop. -/
def Do (f : ℕ → Option String) (maxRetry : ℤ) (sched : List Sched) :
    Option (Option String × ℕ) :=
  match f 0 with
  | none => some (none, 1)
  | some e => if maxRetry = 0 then some (some e, 1) else doLoop f maxRetry 0 none sched

/-- The accumulated error after failing retry attempts `1..k`, where
`msg n` is the text of the operation's error on retry attempt `n`:
newest attempt first, joined by `": "` (the `errors.Wrap` message shape). -/
def accErr (msg : ℕ → String) : ℕ → String
  | 0 => ""
  | 1 => wrapAttempt 1 (msg 1)
  | (k + 2) => wrapAttempt (k + 2) (msg (k + 2)) ++ ": " ++ accErr msg (k + 1)

/-- A Go `interface\x7b\x7d` value stored in the agent self-info map: either a
string or some non-string value (the type assertion `.(string)` only
succeeds on the former). -/
inductive GoValue where
  | str (s : String)
  | other
deriving DecidableEq

/-- Go type alias `Self = map[string]map[string]interface\x7b\x7d`, the response body of the
Consul `/v1/agent/self` endpoint, as an association list. A missing key
behaves like Go's zero-value lookup: `info["Config"]["Version"]` on a
missing `"Config"` yields a nil interface value, whose string type
assertion fails. -/
abbrev Self : Type := List (String × List (String × GoValue))

/-- The string type-asserted value of `info["Config"]["Version"]`:
`some s` exactly when both keys are present and the value is a string. -/
def selfVersion (info : Self) : Option String :=
  match info.lookup "Config" with
  | none => none
  | some conf =>
    match conf.lookup "Version" with
    | none => none
    | some (GoValue.str s) => some s
    | some GoValue.other => none

/-- The result of `version.NewVersion` from the external hashicorp/go-version
library, abstracted to the only field the client reads: `Metadata()`, the
part of the version string after the first `+`. -/
structure GoVersion where
  metadata : String
deriving DecidableEq

/-- Go `strings.Contains(s, sub)`. -/
def goContains (s sub : String) : Bool := decide (sub.data <:+: s.data)

/-- Go constant `ConsulEnterpriseSKU`. -/
def entSKU : String := "ent"

/-- Go constant `ConsulOSSSKU`. -/
def ossSKU : String := "oss"

/-- Model of `parseSKU` from the client package, parameterized by the external
`version.NewVersion` parser (`newVersion v = none` models a parse error). -/
def parseSKU (newVersion : String → Option GoVersion) (info : Self) : String × Bool :=
  match selfVersion info with
  | none => ("", false)
  | some v =>
    match newVersion v with
    | none => ("", false)
    | some ver =>
      if goContains ver.metadata entSKU then (entSKU, true) else (ossSKU, true)

/-- Model of `ConsulClient.GetSKU`, with the retried `Agent().Self()` fetch abstracted
to its final outcome `selfResult` (`Except.error e` is the error returned by
`retry.Do`, `Except.ok info` the fetched self-info). -/
def GetSKU (newVersion : String → Option GoVersion) (selfResult : Except String Self) :
    Except String String :=
  match selfResult with
  | Except.error e => Except.error e
  | Except.ok info =>
    match parseSKU newVersion info with
    | (sku, true) => Except.ok sku
    | (_, false) => Except.error "unable to parse sku"

/-- Model of `ConsulClient.GetLicense`: the closure passed to `retry.Do` sets the
captured `license` variable on every invocation (`fetch i` is the outcome of
`Operator().LicenseGetSigned(q)` on invocation `i`; on error it resets
`license` to `""`). The returned pair is `(license, err)` where `err` is
`retry.Do`'s result; `none` means the schedule trace ran out mid-loop. -/
def GetLicense (fetch : ℕ → Except String String) (maxRetry : ℤ) (sched : List Sched) :
    Option (String × Option String) :=
  match Do (fun i => match fetch i with | Except.ok _ => none | Except.error e => some e)
      maxRetry sched with
  | none => none
  | some (e, calls) =>
    some ((match fetch (calls - 1) with | Except.ok lic => lic | Except.error _ => ""), e)

/-- A task condition: `Dynamic`, `Scheduled`, or `None` (treated as dynamic). -/
inductive TaskCondition where
  | dynamic
  | scheduled
  | condNone
deriving DecidableEq

/-- Whether a condition is the scheduled kind. -/
def TaskCondition.isScheduled : TaskCondition → Bool
  | TaskCondition.scheduled => true
  | _ => false

/-- The slice of a task that `checkApply` reads. -/
structure GoTask where
  enabled : Bool
  condition : TaskCondition
deriving DecidableEq

/-- One recorded execution event, reduced to the fields the claims mention. -/
structure Event where
  success : Bool
  eventError : Option String
deriving DecidableEq

/-- The observable outcome of one `checkApply` call: the returned
`(rendered, err)` pair, the list of events recorded during the call, and
whether `driver.ApplyTask` was invoked. -/
structure CheckApplyResult where
  rendered : Bool
  err : Option String
  events : List Event
  applyCalled : Bool
deriving DecidableEq

/-- Modelled from the spec: `checkApply(ctx, driver, retry, once)` of
§4.4.3 — the controller source file (controller/readwrite.go) is absent
from src/, only its tests are present. `render` is the driver's
`RenderTemplate` outcome (`Except.error e` an error, `Except.ok b` the
rendered flag); `applyRes` is the outcome of `ApplyTask` (after its
retry wrapper when `withRetry` is set), consulted only when a render
succeeds with `rendered = true`. Steps: disabled task → `(false, nil)`
and no event; render error → failure event and `(false, err)`; rendered
false → no event in once mode for scheduled tasks, else one success
event, returning `(false, nil)`; rendered true → apply, then one event
whose success mirrors the apply error. -/
def checkApply (task : GoTask) (render : Except String Bool) (applyRes : Option String)
    (withRetry once : Bool) : CheckApplyResult :=
  if !task.enabled then ⟨false, none, [], false⟩
  else
    match render with
    | Except.error e => ⟨false, some e, [⟨false, some e⟩], false⟩
    | Except.ok false =>
      if once && task.condition.isScheduled then ⟨false, none, [], false⟩
      else ⟨false, none, [⟨true, none⟩], false⟩
    | Except.ok true =>
      let _ := withRetry
      ⟨true, applyRes, [⟨applyRes.isNone, applyRes⟩], true⟩

/-- With an always-failing operation and unbounded retries, the loop never
returns on a schedule made only of ticks, from any loop state. -/
theorem doLoop_inf_replicate (msg : ℕ → String) (n : ℕ) :
    ∀ (t : ℕ) (errs : Option String),
      doLoop (fun i => some (msg i)) (-1) t errs (List.replicate n Sched.tick) = none := by
  induction n with
  | zero => intro t errs; rfl
  | succ n ih =>
    intro t errs
    rw [List.replicate_succ]
    simp only [doLoop]
    rw [if_neg (by norm_num)]
    exact ih (t + 1) _

/-- With an always-failing operation and unbounded retries, the loop returns
the context error as soon as `ctx.Done()` fires, having performed one
operation invocation per preceding tick. -/
theorem doLoop_ctxdone (msg : ℕ → String) (e : String) (rest : List Sched) (n : ℕ) :
    ∀ (t : ℕ) (errs : Option String),
      doLoop (fun i => some (msg i)) (-1) t errs
        (List.replicate n Sched.tick ++ Sched.ctxDone e :: rest) = some (some e, t + n + 1) := by
  induction n with
  | zero => intro t errs; rfl
  | succ n ih =>
    intro t errs
    rw [List.replicate_succ]
    simp only [List.cons_append, doLoop]
    rw [if_neg (by norm_num)]
    have harith : t + 1 + n + 1 = t + (n + 1) + 1 := by omega
    refine (ih (t + 1) _).trans ?_
    rw [harith]

/-- With an always-failing operation and a positive retry bound `m`, the loop
started at attempt `t < m` with the accumulated error for attempts `1..t`
runs to exhaustion on any tick-only schedule long enough, returning the
accumulated error for attempts `1..m` after `m + 1` total invocations. -/
theorem doLoop_exhaust (msg : ℕ → String) (m : ℕ) :
    ∀ (n t : ℕ), t < m → m ≤ t + n →
      doLoop (fun i => some (msg i)) (m : ℤ) t
        (if t = 0 then none else some (accErr msg t)) (List.replicate n Sched.tick) =
        some (some (accErr msg m), m + 1) := by
  intro n
  induction n with
  | zero => intro t h1 h2; omega
  | succ n ih =>
    intro t h1 h2
    rw [List.replicate_succ]
    simp only [doLoop]
    have herrs :
        (match (if t = 0 then none else some (accErr msg t) : Option String) with
          | none => wrapAttempt (t + 1) (msg (t + 1))
          | some prev => wrapAttempt (t + 1) (msg (t + 1)) ++ ": " ++ prev) =
          accErr msg (t + 1) := by
      rcases Nat.eq_zero_or_pos t with ht | ht
      · subst ht; rfl
      · obtain ⟨k, rfl⟩ := Nat.exists_eq_succ_of_ne_zero (Nat.pos_iff_ne_zero.mp ht)
        rw [if_neg (by omega)]
        rfl
    rw [herrs]
    by_cases hend : m ≤ t + 1
    · have htm : t + 1 = m := by omega
      rw [if_pos ⟨by positivity, by exact_mod_cast htm.ge⟩, htm]
    · rw [if_neg (by
        rintro ⟨-, hge⟩
        exact hend (by exact_mod_cast hge))]
      have := ih (t + 1) (by omega) (by omega)
      rw [if_neg (by omega)] at this
      exact this

/-- Specialization of `doLoop_exhaust` to a run of `Do` itself. -/
theorem do_exhaust (msg : ℕ → String) (m n : ℕ) (hm : 1 ≤ m) (hn : m ≤ n) :
    Do (fun i => some (msg i)) (m : ℤ) (List.replicate n Sched.tick) =
      some (some (accErr msg m), m + 1) := by
  have hm0 : ((m : ℤ)) ≠ 0 := by exact_mod_cast Nat.one_le_iff_ne_zero.mp hm
  simp only [Do, if_neg hm0]
  have := doLoop_exhaust msg m n 0 (by omega) (by omega)
  rw [if_pos rfl] at this
  exact this

/-- Claim C4: with `max_retries == 0`, `Retry.Do` invokes the operation
exactly once (the invocation count is 1), returns nil when it returns nil,
and otherwise returns the operation's error unchanged, consuming no
schedule step (no delay, no further invocation). -/
theorem do_maxRetryZero_single_attempt (f : ℕ → Option String) (sched : List Sched) :
    Do f 0 sched = some (f 0, 1) := by
  cases hf : f 0 <;> simp [Do, hf]

/-- Claim C1 (modelled from the spec, §4.4.3): when `RenderTemplate`
returns `(false, nil)` on an enabled task, `checkApply` returns
`(false, nil)`, never calls `ApplyTask`, and records no event in once mode
for scheduled tasks but exactly one `success = true` event in every other
case. -/
theorem checkApply_template_not_ready (task : GoTask) (applyRes : Option String)
    (withRetry once : Bool) (h : task.enabled = true) :
    checkApply task (Except.ok false) applyRes withRetry once =
      if once && task.condition.isScheduled then ⟨false, none, [], false⟩
      else ⟨false, none, [⟨true, none⟩], false⟩ := by
  simp [checkApply, h]

theorem checkApply_template_not_ready_witness :
    (GoTask.mk true TaskCondition.scheduled).enabled = true ∧
    checkApply (GoTask.mk true TaskCondition.scheduled) (Except.ok false) none false true =
      (if true && (TaskCondition.scheduled).isScheduled then ⟨false, none, [], false⟩
       else ⟨false, none, [⟨true, none⟩], false⟩ : CheckApplyResult) :=
  ⟨rfl, checkApply_template_not_ready (GoTask.mk true TaskCondition.scheduled) none false true rfl⟩

/-- Claim C10: `parseSKU` is total: on any input whose
`Config.Version` lookup fails (missing key or non-string value) or whose
version string fails to parse it returns `("", false)`, and on every input
its result is one of `("", false)`, `("ent", true)`, `("oss", true)`. -/
theorem parseSKU_total (newVersion : String → Option GoVersion) (info : Self) :
    (selfVersion info = none → parseSKU newVersion info = ("", false))
    ∧ (∀ v, selfVersion info = some v → newVersion v = none →
        parseSKU newVersion info = ("", false))
    ∧ (parseSKU newVersion info = ("", false) ∨ parseSKU newVersion info = (entSKU, true)
        ∨ parseSKU newVersion info = (ossSKU, true)) := by
  refine ⟨fun hv => by simp [parseSKU, hv], fun v hv hp => by simp [parseSKU, hv, hp], ?_⟩
  cases hv : selfVersion info with
  | none => simp [parseSKU, hv]
  | some v =>
    cases hp : newVersion v with
    | none => simp [parseSKU, hv, hp]
    | some ver =>
      by_cases hc : goContains ver.metadata entSKU = true <;>
        simp [parseSKU, hv, hp, hc]

theorem parseSKU_total_witness :
    selfVersion ([] : Self) = none ∧
    parseSKU (fun _ => none) ([] : Self) = ("", false) :=
  ⟨rfl, (parseSKU_total (fun _ => none) []).1 rfl⟩

/-- Claim C7: when the self-info's `Config.Version` is present and
parseable, `parseSKU` returns `("ent", true)` exactly when the parsed
version's metadata contains `"ent"` and `("oss", true)` otherwise; hence
`GetSKU` returns `"ent"` or `"oss"` on success, and an error when the
version is missing or unparseable. -/
theorem getSKU_parses_sku (newVersion : String → Option GoVersion) (info : Self)
    (v : String) (ver : GoVersion)
    (hv : selfVersion info = some v) (hp : newVersion v = some ver) :
    parseSKU newVersion info =
      (if goContains ver.metadata entSKU then (entSKU, true) else (ossSKU, true))
    ∧ GetSKU newVersion (Except.ok info) =
        Except.ok (if goContains ver.metadata entSKU then entSKU else ossSKU)
    ∧ (∀ info2 : Self, selfVersion info2 = none →
        GetSKU newVersion (Except.ok info2) = Except.error "unable to parse sku")
    ∧ (∀ (info3 : Self) (v3 : String), selfVersion info3 = some v3 → newVersion v3 = none →
        GetSKU newVersion (Except.ok info3) = Except.error "unable to parse sku") := by
  have h1 : parseSKU newVersion info =
      (if goContains ver.metadata entSKU then (entSKU, true) else (ossSKU, true)) := by
    simp [parseSKU, hv, hp]
  refine ⟨h1, ?_, ?_, ?_⟩
  · by_cases hc : goContains ver.metadata entSKU = true <;>
      simp [GetSKU, h1, hc]
  · intro info2 h2; simp [GetSKU, parseSKU, h2]
  · intro info3 v3 h3 h4; simp [GetSKU, parseSKU, h3, h4]

theorem getSKU_parses_sku_witness :
    (selfVersion [("Config", [("Version", GoValue.str "v1")])] = some "v1"
      ∧ (fun _ : String => some (GoVersion.mk "ent")) "v1" = some (GoVersion.mk "ent"))
    ∧ (parseSKU (fun _ : String => some (GoVersion.mk "ent"))
          [("Config", [("Version", GoValue.str "v1")])] =
        (if goContains (GoVersion.mk "ent").metadata entSKU then (entSKU, true)
         else (ossSKU, true))
      ∧ GetSKU (fun _ : String => some (GoVersion.mk "ent"))
          (Except.ok [("Config", [("Version", GoValue.str "v1")])]) =
          Except.ok (if goContains (GoVersion.mk "ent").metadata entSKU then entSKU else ossSKU)
      ∧ (∀ info2 : Self, selfVersion info2 = none →
          GetSKU (fun _ : String => some (GoVersion.mk "ent")) (Except.ok info2) =
            Except.error "unable to parse sku")
      ∧ (∀ (info3 : Self) (v3 : String), selfVersion info3 = some v3 →
          (fun _ : String => some (GoVersion.mk "ent")) v3 = none →
          GetSKU (fun _ : String => some (GoVersion.mk "ent")) (Except.ok info3) =
            Except.error "unable to parse sku")) :=
  ⟨⟨rfl, rfl⟩,
    getSKU_parses_sku (fun _ : String => some (GoVersion.mk "ent"))
      [("Config", [("Version", GoValue.str "v1")])] "v1" (GoVersion.mk "ent") rfl rfl⟩

/-- Claim C2: for attempt `a` and random draw `r` in `[0, 1)`, when the
computed total exceeds the 15-minute cap `WaitTime` returns the cap
(900 seconds in nanoseconds), and otherwise the returned delay `d`
satisfies `2^a * 1e9 ≤ d < 2^(a+1) * 1e9`. -/
theorem waitTime_law (a : ℕ) (r : ℚ) (h0 : 0 ≤ r) (h1 : r < 1) :
    (maxWaitTime < rawTotal a r → WaitTime a r = 900000000000)
    ∧ (rawTotal a r ≤ maxWaitTime →
        (2 ^ a * 1000000000 : ℤ) ≤ WaitTime a r ∧ WaitTime a r < 2 ^ (a + 1) * 1000000000) := by
  have hX : (0 : ℚ) < 2 ^ a := by positivity
  have hrange : ((2 : ℚ) ^ (a + 1) - 2 ^ a) / 2 = 2 ^ a / 2 := by rw [pow_succ]; ring
  have hlow : (2 : ℚ) ^ a * 1000000000 ≤ rawTotal a r := by
    unfold rawTotal
    rw [hrange]
    nlinarith [mul_nonneg h0 (le_of_lt (half_pos hX))]
  have hup : rawTotal a r < 2 ^ (a + 1) * 1000000000 := by
    unfold rawTotal
    rw [hrange, pow_succ]
    nlinarith [mul_lt_mul_of_pos_right h1 (half_pos hX)]
  constructor
  · intro hgt
    rw [WaitTime, if_pos hgt]
    unfold goInt maxWaitTime
    norm_num
  · intro hle
    have hW : WaitTime a r = ⌊rawTotal a r⌋ := by
      rw [WaitTime, if_neg (not_lt.mpr hle), goInt,
        if_neg (not_lt.mpr (le_trans (by positivity) hlow))]
    constructor
    · rw [hW]
      refine Int.le_floor.mpr ?_
      push_cast
      exact hlow
    · rw [hW]
      refine Int.floor_lt.mpr ?_
      push_cast
      exact hup

theorem waitTime_law_witness :
    ((0 : ℚ) ≤ 0 ∧ (0 : ℚ) < 1) ∧
    ((maxWaitTime < rawTotal 0 0 → WaitTime 0 0 = 900000000000)
      ∧ (rawTotal 0 0 ≤ maxWaitTime →
          (2 ^ 0 * 1000000000 : ℤ) ≤ WaitTime 0 0 ∧ WaitTime 0 0 < 2 ^ (0 + 1) * 1000000000)) :=
  ⟨⟨le_refl 0, by norm_num⟩, waitTime_law 0 0 (le_refl 0) (by norm_num)⟩

/-- Claim C3: for every attempt `a` with `2^a` seconds at least 900 seconds
and every nonnegative random draw, `WaitTime` returns exactly
900_000_000_000 nanoseconds. -/
theorem waitTime_cap_exact (a : ℕ) (r : ℚ) (hcap : (900 : ℕ) ≤ 2 ^ a) (h0 : 0 ≤ r) :
    WaitTime a r = 900000000000 := by
  have h10 : 10 ≤ a := by
    by_contra h
    push_neg at h
    have h9 : (2 : ℕ) ^ a ≤ 2 ^ 9 := Nat.pow_le_pow_right (by norm_num) (by omega)
    have : (2 : ℕ) ^ 9 = 512 := by norm_num
    omega
  have h1024 : (1024 : ℚ) ≤ 2 ^ a := by
    have hn : (2 : ℕ) ^ 10 ≤ 2 ^ a := Nat.pow_le_pow_right (by norm_num) h10
    calc (1024 : ℚ) = ((2 ^ 10 : ℕ) : ℚ) := by norm_num
    _ ≤ ((2 ^ a : ℕ) : ℚ) := by exact_mod_cast hn
    _ = (2 : ℚ) ^ a := by push_cast; ring
  have hX : (0 : ℚ) < 2 ^ a := by positivity
  have hrange : ((2 : ℚ) ^ (a + 1) - 2 ^ a) / 2 = 2 ^ a / 2 := by rw [pow_succ]; ring
  have hgt : maxWaitTime < rawTotal a r := by
    unfold rawTotal maxWaitTime
    rw [hrange]
    nlinarith [mul_nonneg h0 (le_of_lt (half_pos hX))]
  rw [WaitTime, if_pos hgt]
  unfold goInt maxWaitTime
  norm_num

theorem waitTime_cap_exact_witness :
    ((900 : ℕ) ≤ 2 ^ 10 ∧ (0 : ℚ) ≤ 0) ∧ WaitTime 10 0 = 900000000000 :=
  ⟨⟨by norm_num, le_refl 0⟩, waitTime_cap_exact 10 0 (by norm_num) (le_refl 0)⟩

/-- Each attempt's wrapped error text occurs inside the accumulated error
for attempts `1..m`. -/
theorem wrap_infix_accErr (msg : ℕ → String) :
    ∀ (m : ℕ), ∀ N, 1 ≤ N → N ≤ m →
      (wrapAttempt N (msg N)).data <:+: (accErr msg m).data
  | 0, N, h1, h2 => absurd (h1.trans h2) (by omega)
  | 1, N, h1, h2 => by
    have hN : N = 1 := by omega
    subst hN
    exact List.infix_refl _
  | (k + 2), N, h1, h2 => by
    by_cases hN : N = k + 2
    · subst hN
      rw [accErr, String.data_append, String.data_append]
      exact ((List.prefix_append _ _).trans (List.prefix_append _ _)).isInfix
    · have hrec := wrap_infix_accErr msg (k + 1) N h1 (by omega)
      rw [accErr, String.data_append]
      exact hrec.trans (List.suffix_append _ _).isInfix

/-- Claim C5: with an operation that fails on every invocation,
`Retry.Do` with `max_retries == -1` never returns on any finite tick-only
schedule, and returns exactly the context error once `ctx.Done()` fires;
with `max_retries = m ≥ 1` it stops once the attempt counter reaches `m`,
returning the accumulated error. -/
theorem retry_do_termination (msg : ℕ → String) (e : String) (rest : List Sched)
    (n m : ℕ) (hm : 1 ≤ m) (hn : m ≤ n) :
    Do (fun i => some (msg i)) (-1) (List.replicate n Sched.tick) = none
    ∧ Do (fun i => some (msg i)) (-1)
        (List.replicate n Sched.tick ++ Sched.ctxDone e :: rest) = some (some e, n + 1)
    ∧ Do (fun i => some (msg i)) (m : ℤ) (List.replicate n Sched.tick) =
        some (some (accErr msg m), m + 1) := by
  refine ⟨?_, ?_, do_exhaust msg m n hm hn⟩
  · simp only [Do, if_neg (by norm_num : (-1 : ℤ) ≠ 0)]
    exact doLoop_inf_replicate msg n 0 none
  · simp only [Do, if_neg (by norm_num : (-1 : ℤ) ≠ 0)]
    have := doLoop_ctxdone msg e rest n 0 none
    rwa [Nat.zero_add] at this

theorem retry_do_termination_witness :
    ((1 : ℕ) ≤ 1 ∧ (1 : ℕ) ≤ 1) ∧
    (Do (fun i => some ((fun _ : ℕ => "x") i)) (-1) (List.replicate 1 Sched.tick) = none
      ∧ Do (fun i => some ((fun _ : ℕ => "x") i)) (-1)
          (List.replicate 1 Sched.tick ++ Sched.ctxDone "ctx" :: []) = some (some "ctx", 1 + 1)
      ∧ Do (fun i => some ((fun _ : ℕ => "x") i)) ((1 : ℕ) : ℤ) (List.replicate 1 Sched.tick) =
          some (some (accErr (fun _ : ℕ => "x") 1), 1 + 1)) :=
  ⟨⟨le_refl 1, le_refl 1⟩,
    retry_do_termination (fun _ : ℕ => "x") "ctx" [] 1 1 (le_refl 1) (le_refl 1)⟩

/-- Claim C6: when every invocation fails and retries are exhausted after
`m ≥ 1` attempts, the accumulated error returned by `Retry.Do` contains,
for every retry attempt `N` in `1..m`, the text
`retry attempt #N failed '<inner>'` built from that attempt's inner error
text — the whole cause chain is preserved. -/
theorem retry_do_error_format (msg : ℕ → String) (m n : ℕ) (hm : 1 ≤ m) (hn : m ≤ n) :
    ∃ E, Do (fun i => some (msg i)) ((m : ℕ) : ℤ) (List.replicate n Sched.tick) =
        some (some E, m + 1)
      ∧ ∀ N, 1 ≤ N → N ≤ m → (wrapAttempt N (msg N)).data <:+: E.data :=
  ⟨accErr msg m, do_exhaust msg m n hm hn, fun N h1 h2 => wrap_infix_accErr msg m N h1 h2⟩

theorem retry_do_error_format_witness :
    ((1 : ℕ) ≤ 1 ∧ (1 : ℕ) ≤ 1) ∧
    (∃ E, Do (fun i => some ((fun _ : ℕ => "boom") i)) ((1 : ℕ) : ℤ)
          (List.replicate 1 Sched.tick) = some (some E, 1 + 1)
      ∧ ∀ N, 1 ≤ N → N ≤ 1 →
          (wrapAttempt N ((fun _ : ℕ => "boom") N)).data <:+: E.data) :=
  ⟨⟨le_refl 1, le_refl 1⟩,
    retry_do_error_format (fun _ : ℕ => "boom") 1 1 (le_refl 1) (le_refl 1)⟩

/-- The retry loop only ever invokes the operation at invocation indices
`≥ 1`, so two operations agreeing there drive it identically. -/
theorem doLoop_congr (f g : ℕ → Option String) (m : ℤ)
    (hfg : ∀ i, 1 ≤ i → f i = g i) :
    ∀ (sched : List Sched) (t : ℕ) (errs : Option String),
      doLoop f m t errs sched = doLoop g m t errs sched := by
  intro sched
  induction sched with
  | nil => intro t errs; rfl
  | cons s rest ih =>
    intro t errs
    cases s with
    | ctxDone e => rfl
    | tick =>
      simp only [doLoop]
      rw [hfg (t + 1) (by omega)]
      cases hg : g (t + 1) with
      | none => rfl
      | some msg =>
        simp only []
        split
        · rfl
        · exact ih (t + 1) _

/-- Claim C9: when the initial invocation fails and `max_retries != 0`, the
initial error is discarded: `Retry.Do`'s outcome (returned error and
invocation count) is identical for two operations whose initial errors
differ arbitrarily but whose retry-attempt results coincide. -/
theorem retry_do_initial_error_discarded (f g : ℕ → Option String) (m : ℤ)
    (sched : List Sched) (hm : m ≠ 0)
    (hfg : ∀ i, 1 ≤ i → f i = g i)
    (a b : String) (hf0 : f 0 = some a) (hg0 : g 0 = some b) :
    Do f m sched = Do g m sched := by
  simp only [Do, hf0, hg0, if_neg hm]
  exact doLoop_congr f g m hfg sched 0 none

theorem retry_do_initial_error_discarded_witness :
    ((1 : ℤ) ≠ 0
      ∧ (∀ i, 1 ≤ i → (fun j : ℕ => some (if j = 0 then "A" else "x")) i =
          (fun j : ℕ => some (if j = 0 then "B" else "x")) i)
      ∧ (fun j : ℕ => some (if j = 0 then "A" else "x")) 0 = some "A"
      ∧ (fun j : ℕ => some (if j = 0 then "B" else "x")) 0 = some "B")
    ∧ Do (fun j : ℕ => some (if j = 0 then "A" else "x")) 1 [Sched.tick] =
        Do (fun j : ℕ => some (if j = 0 then "B" else "x")) 1 [Sched.tick] :=
  ⟨⟨by norm_num, fun i hi => by simp [Nat.pos_iff_ne_zero.mp hi], rfl, rfl⟩,
    retry_do_initial_error_discarded
      (fun j : ℕ => some (if j = 0 then "A" else "x"))
      (fun j : ℕ => some (if j = 0 then "B" else "x")) 1 [Sched.tick]
      (by norm_num) (fun i hi => by simp [Nat.pos_iff_ne_zero.mp hi]) "A" "B" rfl rfl⟩

/-- Whenever the retry loop returns a non-nil error, the last invocation of
the operation (invocation `calls - 1`) itself failed; the invariant needs
the entering attempt's invocation to have failed. -/
theorem doLoop_last_failed (f : ℕ → Option String) (m : ℤ) :
    ∀ (sched : List Sched) (t : ℕ) (errs : Option String) (e : String) (calls : ℕ),
      f t ≠ none → doLoop f m t errs sched = some (some e, calls) →
      f (calls - 1) ≠ none := by
  intro sched
  induction sched with
  | nil => intro t errs e calls _ h; simp [doLoop] at h
  | cons s rest ih =>
    intro t errs e calls hft h
    cases s with
    | ctxDone e2 =>
      simp only [doLoop, Option.some.injEq, Prod.mk.injEq] at h
      rw [← h.2]
      simpa using hft
    | tick =>
      cases hf : f (t + 1) with
      | none =>
        simp only [doLoop, hf, Option.some.injEq, Prod.mk.injEq] at h
        exact Option.noConfusion h.1
      | some msg =>
        simp only [doLoop, hf] at h
        split at h
        · simp only [Option.some.injEq, Prod.mk.injEq] at h
          rw [← h.2]
          simp [hf]
        · exact ih (t + 1) _ e calls (by simp [hf]) h

/-- Claim C8: whenever `ConsulClient.GetLicense` returns a non-nil error —
after retry exhaustion or context cancellation — the returned license
string is exactly `""`; equivalently, a non-empty license only comes with
a nil error. -/
theorem getLicense_error_empty (fetch : ℕ → Except String String) (m : ℤ)
    (sched : List Sched) (lic : String) (err : String)
    (h : GetLicense fetch m sched = some (lic, some err)) : lic = "" := by
  unfold GetLicense at h
  cases hDo : Do (fun i => match fetch i with
      | Except.ok _ => none | Except.error e => some e) m sched with
  | none => rw [hDo] at h; simp at h
  | some pr =>
    obtain ⟨e0, calls⟩ := pr
    rw [hDo] at h
    simp only [Option.some.injEq, Prod.mk.injEq] at h
    have hlast : (match fetch (calls - 1) with
        | Except.ok _ => (none : Option String) | Except.error e => some e) ≠ none := by
      unfold Do at hDo
      cases hf0 : fetch 0 with
      | ok l =>
        simp only [hf0] at hDo
        simp only [Option.some.injEq, Prod.mk.injEq] at hDo
        rw [h.2] at hDo
        exact Option.noConfusion hDo.1
      | error e1 =>
        simp only [hf0] at hDo
        by_cases hm0 : m = 0
        · rw [if_pos hm0] at hDo
          simp only [Option.some.injEq, Prod.mk.injEq] at hDo
          rw [← hDo.2]
          simp [hf0]
        · rw [if_neg hm0] at hDo
          refine doLoop_last_failed (fun i => match fetch i with
            | Except.ok _ => none | Except.error e => some e) m sched 0 none err calls ?_ ?_
          · simp [hf0]
          · rw [hDo, h.2]
    cases hfe : fetch (calls - 1) with
    | ok l =>
      rw [hfe] at hlast
      exact absurd rfl hlast
    | error e2 =>
      rw [hfe] at h
      exact h.1.symm

theorem getLicense_error_empty_witness :
    GetLicense (fun _ : ℕ => Except.error "no license") 0 [] =
      some ("", some "no license") ∧ ("" : String) = "" :=
  ⟨rfl, getLicense_error_empty (fun _ : ℕ => Except.error "no license") 0 [] "" "no license" rfl⟩

end CTS
